import Mathlib

/-!
Verification of the Aegis Quick Share background service worker
(`src/background.js`) against its natural-language specification.

The script is shallowly embedded:

* `encodeURIComponent` / `decodeURIComponent` model the ECMAScript
  percent-encoding primitives over `List Char` with explicit UTF-8 bytes.
* The orchestrator `handleShareAction` (and its helpers `copyToClipboard`
  and the try-region `shareTry`) is modelled as a trace semantics: given
  the triggering tab and an environment describing the platform answers
  (the companion-tab query result and which platform calls fail), it
  returns the list of platform effects performed, in order.  A platform
  call that fails still records its attempt effect, and the JavaScript
  `catch` blocks are modelled by the function continuing (clipboard) or
  appending the logged error and returning normally (top level).
* The injected dispatcher `dispatchShareIntent` is modelled by its
  immediate page events, the timer delay, and the timer callback as a
  function of the page state at firing time.
-/

/-- Code points that `encodeURIComponent` leaves unescaped:
letters, digits, and the marks dash, underscore, dot, bang, tilde,
star, apostrophe and parentheses (ECMA-262 uriUnescaped). -/
def isUnreserved (c : Char) : Bool :=
  decide ((65 ≤ c.toNat ∧ c.toNat ≤ 90) ∨ (97 ≤ c.toNat ∧ c.toNat ≤ 122) ∨
    (48 ≤ c.toNat ∧ c.toNat ≤ 57) ∨ c.toNat = 45 ∨ c.toNat = 95 ∨ c.toNat = 46 ∨
    c.toNat = 33 ∨ c.toNat = 126 ∨ c.toNat = 42 ∨ c.toNat = 39 ∨ c.toNat = 40 ∨ c.toNat = 41)

/-- UTF-8 byte sequence of a code point. -/
def utf8Bytes (n : Nat) : List Nat :=
  if n < 128 then [n]
  else if n < 2048 then [192 + n / 64, 128 + n % 64]
  else if n < 65536 then [224 + n / 4096, 128 + n / 64 % 64, 128 + n % 64]
  else [240 + n / 262144, 128 + n / 4096 % 64, 128 + n / 64 % 64, 128 + n % 64]

/-- Uppercase hexadecimal digit, as produced by `encodeURIComponent`. -/
def hexDigit (v : Nat) : Char :=
  if v < 10 then Char.ofNat (48 + v) else Char.ofNat (55 + v)

/-- Percent-escape of one byte: `%XY` with uppercase hex digits. -/
def pctOfByte (b : Nat) : List Char :=
  [Char.ofNat 37, hexDigit (b / 16), hexDigit (b % 16)]

/-- Encoding of one character: unreserved characters pass through, all
others become the percent-escapes of their UTF-8 bytes. -/
def encodeChar (c : Char) : List Char :=
  if isUnreserved c then [c] else (utf8Bytes c.toNat).flatMap pctOfByte

/-- Model of the ECMAScript `encodeURIComponent` builtin used at
`background.js` line 104. -/
def encodeURIComponent (s : String) : String :=
  String.mk (s.data.flatMap encodeChar)

/-- Value of one hexadecimal digit character (either case), if any. -/
def hexVal (c : Char) : Option Nat :=
  if 48 ≤ c.toNat ∧ c.toNat ≤ 57 then some (c.toNat - 48)
  else if 65 ≤ c.toNat ∧ c.toNat ≤ 70 then some (c.toNat - 55)
  else if 97 ≤ c.toNat ∧ c.toNat ≤ 102 then some (c.toNat - 87)
  else none

/-- One token of a percent-encoded string: a literal character or a byte
written as a percent escape. -/
inductive PctItem where
  | lit (c : Char)
  | byte (b : Nat)
deriving DecidableEq, Repr

/-- Tokenize a percent-encoded string: each `%XY` becomes a byte, every
other character stays literal; a malformed escape is an error. -/
def pctParse : List Char → Option (List PctItem)
  | [] => some []
  | c :: rest =>
    if c.toNat = 37 then
      match rest with
      | h1 :: h2 :: rest2 =>
        match hexVal h1, hexVal h2 with
        | some a, some b => (pctParse rest2).map (fun items => PctItem.byte (16 * a + b) :: items)
        | _, _ => none
      | _ => none
    else (pctParse rest).map (fun items => PctItem.lit c :: items)

/-- Is `b` a UTF-8 continuation byte (`10xxxxxx`)? -/
def contByte (b : Nat) : Bool :=
  decide (128 ≤ b ∧ b < 192)

/-- Read one UTF-8 sequence whose leading byte is `b` and whose
continuation bytes are the leading items of `rest`: the decoded code
point and the number of continuation items consumed, or `none` when the
bytes do not form a valid (shortest-form, non-surrogate) sequence. -/
def decodeSeq (b : Nat) (rest : List PctItem) : Option (Nat × Nat) :=
  if b < 128 then some (b, 0)
  else if b < 192 then none
  else if b < 224 then
    match rest with
    | PctItem.byte b1 :: _ =>
      if contByte b1 then
        if 128 ≤ (b - 192) * 64 + (b1 - 128) then some ((b - 192) * 64 + (b1 - 128), 1)
        else none
      else none
    | _ => none
  else if b < 240 then
    match rest with
    | PctItem.byte b1 :: PctItem.byte b2 :: _ =>
      if contByte b1 && contByte b2 then
        if 2048 ≤ (b - 224) * 4096 + (b1 - 128) * 64 + (b2 - 128) ∧
            ¬(55296 ≤ (b - 224) * 4096 + (b1 - 128) * 64 + (b2 - 128) ∧
              (b - 224) * 4096 + (b1 - 128) * 64 + (b2 - 128) < 57344) then
          some ((b - 224) * 4096 + (b1 - 128) * 64 + (b2 - 128), 2)
        else none
      else none
    | _ => none
  else if b < 248 then
    match rest with
    | PctItem.byte b1 :: PctItem.byte b2 :: PctItem.byte b3 :: _ =>
      if contByte b1 && contByte b2 && contByte b3 then
        if 65536 ≤ (b - 240) * 262144 + (b1 - 128) * 4096 + (b2 - 128) * 64 + (b3 - 128) ∧
            (b - 240) * 262144 + (b1 - 128) * 4096 + (b2 - 128) * 64 + (b3 - 128) < 1114112 then
          some ((b - 240) * 262144 + (b1 - 128) * 4096 + (b2 - 128) * 64 + (b3 - 128), 3)
        else none
      else none
    | _ => none
  else none

/-- Decode the token stream: literal characters pass through, runs of
percent-escaped bytes must form valid UTF-8 sequences (read by
`decodeSeq`). -/
def itemsDecode : List PctItem → Option (List Char)
  | [] => some []
  | PctItem.lit c :: rest => (itemsDecode rest).map (fun cs => c :: cs)
  | PctItem.byte b :: rest =>
    match decodeSeq b rest with
    | some nk => (itemsDecode (rest.drop nk.2)).map (fun cs => Char.ofNat nk.1 :: cs)
    | none => none
termination_by items => items.length
decreasing_by
  · simp
  · simp [List.length_drop]; omega

/-- Model of the ECMAScript `decodeURIComponent` builtin: the inverse
reading of a percent-encoded string, `none` on a malformed input. -/
def decodeURIComponent (s : String) : Option String :=
  match pctParse s.data with
  | some items =>
    match itemsDecode items with
    | some cs => some (String.mk cs)
    | none => none
  | none => none

/-- `const APP_ORIGIN` from `background.js` line 3. -/
def APP_ORIGIN : String := "https://aegis-e31n.onrender.com"

/-- `const DASHBOARD_URL` from `background.js` line 4. -/
def DASHBOARD_URL : String := APP_ORIGIN ++ "/dashboard/social"

/-- Does the character list `s` start with the character list `p`? -/
def startsWithAux : List Char → List Char → Bool
  | _, [] => true
  | [], _ :: _ => false
  | c :: cs, d :: ds => c == d && startsWithAux cs ds

/-- JavaScript `s.startsWith(p)`, over the underlying character lists. -/
def startsWithL (s p : String) : Bool :=
  startsWithAux s.data p.data

/-- The fields of a `chrome.tabs.Tab` that `background.js` reads:
`id`, `windowId` and `url` (`url` is `none` when unavailable). -/
structure TabInfo where
  id : Nat
  windowId : Nat
  url : Option String
deriving DecidableEq, Repr

/-- One observable platform action of the background script, in the order
performed.  A failing platform call still records its attempt. -/
inductive Effect where
  | clipboardWrite (text : String) (tabId : Nat)
  | logInfo (msg : String)
  | logWarn (msg : String)
  | logError (msg : String)
  | tabQuery (urlPattern : String)
  | tabActivate (tabId : Nat)
  | windowFocus (windowId : Nat)
  | injectDispatch (tabId : Nat) (url : String)
  | tabCreate (url : String)
deriving DecidableEq, Repr

/-- Classifier used to count clipboard-write attempts in a trace. -/
def Effect.isClipboard : Effect → Bool
  | Effect.clipboardWrite _ _ => true
  | _ => false

/-- Classifier used to count tab queries in a trace. -/
def Effect.isQuery : Effect → Bool
  | Effect.tabQuery _ => true
  | _ => false

/-- Classifier used to count dispatcher injections in a trace. -/
def Effect.isInject : Effect → Bool
  | Effect.injectDispatch _ _ => true
  | _ => false

/-- Classifier used to count tab creations in a trace. -/
def Effect.isCreate : Effect → Bool
  | Effect.tabCreate _ => true
  | _ => false

/-- The behaviour of the platform during one invocation: the answer to the
companion-tab query and which platform calls reject. -/
structure Env where
  queryResult : List TabInfo
  clipboardFails : Bool
  queryFails : Bool
  activateFails : Bool
  focusFails : Bool
  injectFails : Bool
  createFails : Bool
deriving Repr

def warnMsg : String := "Aegis Quick Share: Cannot share this page type"
def clipOkMsg : String := "Aegis Quick Share: URL copied to clipboard"
def clipErrMsg : String := "Aegis Quick Share: Failed to copy to clipboard"
def dispatchedMsg : String := "Aegis Quick Share: Dispatched share intent to existing tab"
def openedMsg : String := "Aegis Quick Share: Opened new Aegis tab with share URL"
def shareErrMsg : String := "Aegis Quick Share: Error during share action"

/-- `copyToClipboard` (`background.js` lines 48–61): attempts one script
injection that writes `text` to the clipboard of tab `tabId`; success is
logged, failure is caught and logged, and either way the function returns
normally. -/
def copyToClipboard (text : String) (tabId : Nat) (env : Env) : List Effect :=
  Effect.clipboardWrite text tabId ::
    (if env.clipboardFails then [Effect.logError clipErrMsg] else [Effect.logInfo clipOkMsg])

/-- The `try` region of `handleShareAction` (`background.js` lines
80–109): query for companion tabs, then either focus the first result and
inject the dispatcher, or create a new dashboard tab with the encoded
URL.  Returns the effects performed and whether the region threw (the
first failing call aborts the rest). -/
def shareTry (currentUrl : String) (env : Env) : List Effect × Bool :=
  let q := Effect.tabQuery (APP_ORIGIN ++ "/*")
  if env.queryFails then ([q], true)
  else
    match env.queryResult with
    | aegisTab :: _ =>
      let a := Effect.tabActivate aegisTab.id
      if env.activateFails then ([q, a], true)
      else
        let w := Effect.windowFocus aegisTab.windowId
        if env.focusFails then ([q, a, w], true)
        else
          let i := Effect.injectDispatch aegisTab.id currentUrl
          if env.injectFails then ([q, a, w, i], true)
          else ([q, a, w, i, Effect.logInfo dispatchedMsg], false)
    | [] =>
      let shareUrl := DASHBOARD_URL ++ "?share_url=" ++ encodeURIComponent currentUrl
      let c := Effect.tabCreate shareUrl
      if env.createFails then ([q, c], true)
      else ([q, c, Effect.logInfo openedMsg], false)

/-- `handleShareAction` (`background.js` lines 67–113): reject internal
pages with a warning; otherwise copy the URL to the clipboard (errors
caught inside), then run the try region, logging any error it throws and
returning normally. -/
def handleShareAction (tab : TabInfo) (env : Env) : List Effect :=
  match tab.url with
  | none => [Effect.logWarn warnMsg]
  | some currentUrl =>
    if currentUrl == "" || startsWithL currentUrl "chrome://" ||
        startsWithL currentUrl "chrome-extension://" then
      [Effect.logWarn warnMsg]
    else
      let clip := copyToClipboard currentUrl tab.id env
      let res := shareTry currentUrl env
      clip ++ res.1 ++ (if res.2 then [Effect.logError shareErrMsg] else [])

/-- A DOM element as the dispatcher sees it: its tag name and value. -/
structure DomElem where
  tagName : String
  value : String
deriving DecidableEq, Repr

/-- The page state read by the timer callback of the dispatcher:
`document.activeElement` (absent or an element). -/
structure PageState where
  activeElement : Option DomElem
deriving DecidableEq, Repr

/-- One page-observable event raised by the dispatcher. -/
inductive PageEvent where
  | custom (name : String) (url : String)
  | input
  | paste (text : String)
deriving DecidableEq, Repr

/-- The timer callback of `dispatchShareIntent` (`background.js` lines
17–40): if the active element is an INPUT or TEXTAREA, set its value via
the native setter and raise one `input` event; otherwise raise one
`paste` event on the document carrying the URL as text. -/
def dispatchTimeoutBody (url : String) (st : PageState) : PageState × List PageEvent :=
  match st.activeElement with
  | some el =>
    if el.tagName == "INPUT" || el.tagName == "TEXTAREA" then
      ({ st with activeElement := some { el with value := url } }, [PageEvent.input])
    else (st, [PageEvent.paste url])
  | none => (st, [PageEvent.paste url])

/-- Result of running `dispatchShareIntent` in the page: the events
raised synchronously, the timer delay, and the timer callback. -/
structure DispatchOutcome where
  immediate : List PageEvent
  delayMs : Nat
  onTimeout : PageState → PageState × List PageEvent

/-- `dispatchShareIntent` (`background.js` lines 10–41): synchronously
dispatch the `AEGIS_SHARE_INTENT` custom event with the URL as payload,
then schedule the auto-fill fallback after 100 ms. -/
def dispatchShareIntent (url : String) : DispatchOutcome :=
  { immediate := [PageEvent.custom "AEGIS_SHARE_INTENT" url]
    delayMs := 100
    onTimeout := dispatchTimeoutBody url }

/-- The token sequence that `encodeChar c` parses back to: the literal
character when unreserved, otherwise its UTF-8 bytes. -/
def itemsOf (c : Char) : List PctItem :=
  if isUnreserved c then [PctItem.lit c] else (utf8Bytes c.toNat).map PctItem.byte

/-- Refinement reference for the non-shareable check, written from the
specification text: the address is absent or empty, or begins with the
case-sensitive literal internal-browser or extension-internal scheme. -/
def nonShareableSpec : Option String → Bool
  | none => true
  | some u => u == "" || startsWithL u "chrome://" || startsWithL u "chrome-extension://"

theorem charOfNat_toNat (c : Char) : Char.ofNat c.toNat = c := by
  apply Char.eq_of_val_eq
  apply UInt32.eq_of_toBitVec_eq
  have hv : c.toNat.isValidChar := c.valid
  show (Char.ofNat c.toNat).val.toBitVec = c.val.toBitVec
  rw [Char.ofNat, dif_pos hv]
  apply BitVec.eq_of_toNat_eq
  simp [Char.ofNatAux, Char.toNat, UInt32.toNat]

theorem char_toNat_lt (c : Char) : c.toNat < 1114112 := by
  rcases c.valid with h | ⟨h1, h2⟩
  · exact Nat.lt_trans h (by decide)
  · exact h2

theorem hexVal_hexDigit (v : Nat) (hv : v < 16) : hexVal (hexDigit v) = some v := by
  interval_cases v <;> decide

theorem pctParse_lit (c : Char) (hc : ¬c.toNat = 37) (rest : List Char) :
    pctParse (c :: rest) = (pctParse rest).map (fun items => PctItem.lit c :: items) := by
  rw [pctParse.eq_def]
  dsimp only
  rw [if_neg hc]

theorem pctParse_esc (a b : Nat) (h1 h2 : Char) (e1 : hexVal h1 = some a)
    (e2 : hexVal h2 = some b) (c : Char) (hc : c.toNat = 37) (rest : List Char) :
    pctParse (c :: h1 :: h2 :: rest) =
      (pctParse rest).map (fun items => PctItem.byte (16 * a + b) :: items) := by
  rw [pctParse.eq_def]
  dsimp only
  rw [if_pos hc, e1, e2]

theorem pctParse_pctOfByte (b : Nat) (hb : b < 256) (rest : List Char) :
    pctParse (pctOfByte b ++ rest) =
      (pctParse rest).map (fun items => PctItem.byte b :: items) := by
  have h1 : b / 16 < 16 := by omega
  have h2 : b % 16 < 16 := by omega
  have hr : 16 * (b / 16) + b % 16 = b := by omega
  simp only [pctOfByte, List.cons_append, List.nil_append]
  rw [pctParse_esc _ _ _ _ (hexVal_hexDigit _ h1) (hexVal_hexDigit _ h2) _ (by decide), hr]

theorem utf8Bytes_lt256 (n : Nat) (hn : n < 1114112) :
    ∀ b ∈ utf8Bytes n, b < 256 := by
  intro b hb
  unfold utf8Bytes at hb
  split at hb
  · simp at hb; omega
  · split at hb
    · simp at hb; rcases hb with h | h <;> omega
    · split at hb
      · simp at hb; rcases hb with h | h | h <;> omega
      · simp at hb; rcases hb with h | h | h | h <;> omega

theorem pctParse_bytes (bs : List Nat) (hbs : ∀ b ∈ bs, b < 256) (rest : List Char) :
    pctParse (bs.flatMap pctOfByte ++ rest) =
      (pctParse rest).map (fun items => bs.map PctItem.byte ++ items) := by
  induction bs with
  | nil => cases h : pctParse rest <;> simp [h]
  | cons b bs ih =>
    have hb : b < 256 := hbs b (List.mem_cons_self b bs)
    have hbs' : ∀ x ∈ bs, x < 256 := fun x hx => hbs x (List.mem_cons_of_mem b hx)
    simp only [List.flatMap_cons, List.append_assoc]
    rw [pctParse_pctOfByte b hb, ih hbs']
    cases pctParse rest <;> rfl

theorem pctParse_encodeChar (c : Char) (rest : List Char) :
    pctParse (encodeChar c ++ rest) =
      (pctParse rest).map (fun items => itemsOf c ++ items) := by
  by_cases h : isUnreserved c
  · have hc : ¬c.toNat = 37 := by
      simp only [isUnreserved, decide_eq_true_eq] at h
      omega
    simp only [encodeChar, itemsOf, if_pos h, List.cons_append, List.nil_append]
    rw [pctParse_lit c hc]
  · simp only [encodeChar, itemsOf, if_neg h]
    exact pctParse_bytes _ (utf8Bytes_lt256 _ (char_toNat_lt c)) rest

theorem pctParse_encode (cs : List Char) (rest : List Char) :
    pctParse (cs.flatMap encodeChar ++ rest) =
      (pctParse rest).map (fun items => cs.flatMap itemsOf ++ items) := by
  induction cs with
  | nil => cases h : pctParse rest <;> simp [h]
  | cons c cs ih =>
    simp only [List.flatMap_cons, List.append_assoc]
    rw [pctParse_encodeChar c, ih]
    cases pctParse rest <;> simp

theorem itemsDecode_lit (c : Char) (rest : List PctItem) :
    itemsDecode (PctItem.lit c :: rest) = (itemsDecode rest).map (fun cs => c :: cs) := by
  rw [itemsDecode.eq_def]

theorem itemsDecode_byte (b n k : Nat) (rest : List PctItem)
    (h : decodeSeq b rest = some (n, k)) :
    itemsDecode (PctItem.byte b :: rest) =
      (itemsDecode (rest.drop k)).map (fun cs => Char.ofNat n :: cs) := by
  rw [itemsDecode.eq_def]
  dsimp only
  rw [h]

theorem decodeSeq_1 (n : Nat) (h : n < 128) (rest : List PctItem) :
    decodeSeq n rest = some (n, 0) := by
  unfold decodeSeq
  rw [if_pos h]

theorem decodeSeq_2 (n : Nat) (hlo : 128 ≤ n) (hhi : n < 2048) (rest : List PctItem) :
    decodeSeq (192 + n / 64) (PctItem.byte (128 + n % 64) :: rest) = some (n, 1) := by
  unfold decodeSeq
  rw [if_neg (by omega), if_neg (by omega), if_pos (by omega)]
  dsimp only
  rw [if_pos (show contByte (128 + n % 64) = true by
    simp only [contByte, decide_eq_true_eq]; omega)]
  rw [if_pos (by omega)]
  have hn : (192 + n / 64 - 192) * 64 + (128 + n % 64 - 128) = n := by omega
  rw [hn]

theorem decodeSeq_3 (n : Nat) (hlo : 2048 ≤ n) (hhi : n < 65536)
    (hsur : ¬(55296 ≤ n ∧ n < 57344)) (rest : List PctItem) :
    decodeSeq (224 + n / 4096)
      (PctItem.byte (128 + n / 64 % 64) :: PctItem.byte (128 + n % 64) :: rest) = some (n, 2) := by
  unfold decodeSeq
  rw [if_neg (by omega), if_neg (by omega), if_neg (by omega), if_pos (by omega)]
  dsimp only
  rw [if_pos (show (contByte (128 + n / 64 % 64) && contByte (128 + n % 64)) = true by
    simp only [contByte, Bool.and_eq_true, decide_eq_true_eq]; omega)]
  have hn : (224 + n / 4096 - 224) * 4096 + (128 + n / 64 % 64 - 128) * 64 +
      (128 + n % 64 - 128) = n := by omega
  rw [hn]
  rw [if_pos (by constructor <;> omega)]

theorem decodeSeq_4 (n : Nat) (hlo : 65536 ≤ n) (hhi : n < 1114112) (rest : List PctItem) :
    decodeSeq (240 + n / 262144) (PctItem.byte (128 + n / 4096 % 64) ::
      PctItem.byte (128 + n / 64 % 64) :: PctItem.byte (128 + n % 64) :: rest) = some (n, 3) := by
  unfold decodeSeq
  rw [if_neg (by omega), if_neg (by omega), if_neg (by omega), if_neg (by omega),
    if_pos (by omega)]
  dsimp only
  rw [if_pos (show (contByte (128 + n / 4096 % 64) && contByte (128 + n / 64 % 64) &&
      contByte (128 + n % 64)) = true by
    simp only [contByte, Bool.and_eq_true, decide_eq_true_eq]; omega)]
  have hn : (240 + n / 262144 - 240) * 262144 + (128 + n / 4096 % 64 - 128) * 4096 +
      (128 + n / 64 % 64 - 128) * 64 + (128 + n % 64 - 128) = n := by omega
  rw [hn]
  rw [if_pos (by constructor <;> omega)]

theorem itemsDecode_u1 (n : Nat) (h : n < 128) (rest : List PctItem) :
    itemsDecode (PctItem.byte n :: rest) =
      (itemsDecode rest).map (fun cs => Char.ofNat n :: cs) := by
  rw [itemsDecode_byte n n 0 rest (decodeSeq_1 n h rest)]
  rfl

theorem itemsDecode_u2 (n : Nat) (hlo : 128 ≤ n) (hhi : n < 2048) (rest : List PctItem) :
    itemsDecode (PctItem.byte (192 + n / 64) :: PctItem.byte (128 + n % 64) :: rest) =
      (itemsDecode rest).map (fun cs => Char.ofNat n :: cs) := by
  rw [itemsDecode_byte _ n 1 _ (decodeSeq_2 n hlo hhi rest)]
  rfl

theorem itemsDecode_u3 (n : Nat) (hlo : 2048 ≤ n) (hhi : n < 65536)
    (hsur : ¬(55296 ≤ n ∧ n < 57344)) (rest : List PctItem) :
    itemsDecode (PctItem.byte (224 + n / 4096) :: PctItem.byte (128 + n / 64 % 64) ::
        PctItem.byte (128 + n % 64) :: rest) =
      (itemsDecode rest).map (fun cs => Char.ofNat n :: cs) := by
  rw [itemsDecode_byte _ n 2 _ (decodeSeq_3 n hlo hhi hsur rest)]
  rfl

theorem itemsDecode_u4 (n : Nat) (hlo : 65536 ≤ n) (hhi : n < 1114112) (rest : List PctItem) :
    itemsDecode (PctItem.byte (240 + n / 262144) :: PctItem.byte (128 + n / 4096 % 64) ::
        PctItem.byte (128 + n / 64 % 64) :: PctItem.byte (128 + n % 64) :: rest) =
      (itemsDecode rest).map (fun cs => Char.ofNat n :: cs) := by
  rw [itemsDecode_byte _ n 3 _ (decodeSeq_4 n hlo hhi rest)]
  rfl

theorem itemsDecode_utf8 (n : Nat) (hv : n.isValidChar) (rest : List PctItem) :
    itemsDecode ((utf8Bytes n).map PctItem.byte ++ rest) =
      (itemsDecode rest).map (fun cs => Char.ofNat n :: cs) := by
  have hn : n < 1114112 := by rcases hv with h | ⟨h1, h2⟩ <;> omega
  by_cases h1 : n < 128
  · rw [show utf8Bytes n = [n] from by unfold utf8Bytes; rw [if_pos h1]]
    exact itemsDecode_u1 n h1 rest
  · by_cases h2 : n < 2048
    · rw [show utf8Bytes n = [192 + n / 64, 128 + n % 64] from by
        unfold utf8Bytes; rw [if_neg h1, if_pos h2]]
      exact itemsDecode_u2 n (by omega) h2 rest
    · by_cases h3 : n < 65536
      · rw [show utf8Bytes n = [224 + n / 4096, 128 + n / 64 % 64, 128 + n % 64] from by
          unfold utf8Bytes; rw [if_neg h1, if_neg h2, if_pos h3]]
        have hsur : ¬(55296 ≤ n ∧ n < 57344) := by
          rcases hv with h | ⟨ha, hb⟩ <;> omega
        exact itemsDecode_u3 n (by omega) h3 hsur rest
      · rw [show utf8Bytes n =
            [240 + n / 262144, 128 + n / 4096 % 64, 128 + n / 64 % 64, 128 + n % 64] from by
          unfold utf8Bytes; rw [if_neg h1, if_neg h2, if_neg h3]]
        exact itemsDecode_u4 n (by omega) hn rest

theorem itemsDecode_itemsOf (c : Char) (rest : List PctItem) :
    itemsDecode (itemsOf c ++ rest) = (itemsDecode rest).map (fun cs => c :: cs) := by
  by_cases h : isUnreserved c
  · simp only [itemsOf, if_pos h, List.cons_append, List.nil_append]
    exact itemsDecode_lit c rest
  · simp only [itemsOf, if_neg h]
    rw [itemsDecode_utf8 c.toNat c.valid rest, charOfNat_toNat]

theorem itemsDecode_flatMap (cs : List Char) (rest : List PctItem) :
    itemsDecode (cs.flatMap itemsOf ++ rest) = (itemsDecode rest).map (fun ds => cs ++ ds) := by
  induction cs with
  | nil => cases h : itemsDecode rest <;> simp [h]
  | cons c cs ih =>
    simp only [List.flatMap_cons, List.append_assoc]
    rw [itemsDecode_itemsOf c, ih]
    cases itemsDecode rest <;> rfl

theorem itemsDecode_nil : itemsDecode [] = some [] := by
  rw [itemsDecode.eq_def]

theorem decode_encode_list (cs : List Char) :
    decodeURIComponent (String.mk (cs.flatMap encodeChar)) = some (String.mk cs) := by
  have h1 : pctParse (cs.flatMap encodeChar) = some (cs.flatMap itemsOf) := by
    have h := pctParse_encode cs []
    rw [List.append_nil, show pctParse [] = some [] from rfl] at h
    simpa using h
  have h2 : itemsDecode (cs.flatMap itemsOf) = some cs := by
    have h := itemsDecode_flatMap cs []
    rw [List.append_nil, itemsDecode_nil] at h
    simpa using h
  unfold decodeURIComponent
  show (match pctParse (cs.flatMap encodeChar) with
    | some items =>
      match itemsDecode items with
      | some ds => some (String.mk ds)
      | none => none
    | none => none) = some (String.mk cs)
  rw [h1]
  dsimp only
  rw [h2]

theorem handleShareAction_none (tab : TabInfo) (env : Env) (hu : tab.url = none) :
    handleShareAction tab env = [Effect.logWarn warnMsg] := by
  unfold handleShareAction
  rw [hu]

theorem handleShareAction_bad (tab : TabInfo) (env : Env) (u : String) (hu : tab.url = some u)
    (hs : (u == "" || startsWithL u "chrome://" || startsWithL u "chrome-extension://") = true) :
    handleShareAction tab env = [Effect.logWarn warnMsg] := by
  unfold handleShareAction
  rw [hu]
  dsimp only
  rw [if_pos hs]

theorem handleShareAction_ok (tab : TabInfo) (env : Env) (u : String) (hu : tab.url = some u)
    (hs : (u == "" || startsWithL u "chrome://" || startsWithL u "chrome-extension://") = false) :
    handleShareAction tab env =
      copyToClipboard u tab.id env ++ (shareTry u env).1 ++
        (if (shareTry u env).2 then [Effect.logError shareErrMsg] else []) := by
  unfold handleShareAction
  rw [hu]
  dsimp only
  rw [if_neg (by simp [hs])]

theorem shareTry_qfail (u : String) (env : Env) (h : env.queryFails = true) :
    shareTry u env = ([Effect.tabQuery (APP_ORIGIN ++ "/*")], true) := by
  unfold shareTry
  rw [if_pos h]

theorem shareTry_empty (u : String) (env : Env) (hq : env.queryFails = false)
    (hr : env.queryResult = []) :
    shareTry u env =
      if env.createFails then
        ([Effect.tabQuery (APP_ORIGIN ++ "/*"),
          Effect.tabCreate (DASHBOARD_URL ++ "?share_url=" ++ encodeURIComponent u)], true)
      else
        ([Effect.tabQuery (APP_ORIGIN ++ "/*"),
          Effect.tabCreate (DASHBOARD_URL ++ "?share_url=" ++ encodeURIComponent u),
          Effect.logInfo openedMsg], false) := by
  unfold shareTry
  rw [if_neg (by simp [hq]), hr]

theorem shareTry_cons (u : String) (env : Env) (t : TabInfo) (ts : List TabInfo)
    (hq : env.queryFails = false) (hr : env.queryResult = t :: ts) :
    shareTry u env =
      if env.activateFails then
        ([Effect.tabQuery (APP_ORIGIN ++ "/*"), Effect.tabActivate t.id], true)
      else if env.focusFails then
        ([Effect.tabQuery (APP_ORIGIN ++ "/*"), Effect.tabActivate t.id,
          Effect.windowFocus t.windowId], true)
      else if env.injectFails then
        ([Effect.tabQuery (APP_ORIGIN ++ "/*"), Effect.tabActivate t.id,
          Effect.windowFocus t.windowId, Effect.injectDispatch t.id u], true)
      else
        ([Effect.tabQuery (APP_ORIGIN ++ "/*"), Effect.tabActivate t.id,
          Effect.windowFocus t.windowId, Effect.injectDispatch t.id u,
          Effect.logInfo dispatchedMsg], false) := by
  unfold shareTry
  rw [if_neg (by simp [hq]), hr]

theorem shareTry_no_clipboard (u : String) (env : Env) :
    ∀ e ∈ (shareTry u env).1, e.isClipboard = false := by
  by_cases hq : env.queryFails = true
  · rw [shareTry_qfail u env hq]
    simp [Effect.isClipboard]
  · rcases hr : env.queryResult with _ | ⟨t, ts⟩
    · rw [shareTry_empty u env (by simpa using hq) hr]
      cases env.createFails <;> simp [Effect.isClipboard]
    · rw [shareTry_cons u env t ts (by simpa using hq) hr]
      cases env.activateFails <;> cases env.focusFails <;> cases env.injectFails <;>
        simp [Effect.isClipboard]

theorem shareTry_mem_query (u : String) (env : Env) :
    Effect.tabQuery (APP_ORIGIN ++ "/*") ∈ (shareTry u env).1 := by
  by_cases hq : env.queryFails = true
  · rw [shareTry_qfail u env hq]
    simp
  · rcases hr : env.queryResult with _ | ⟨t, ts⟩
    · rw [shareTry_empty u env (by simpa using hq) hr]
      cases env.createFails <;> simp
    · rw [shareTry_cons u env t ts (by simpa using hq) hr]
      cases env.activateFails <;> cases env.focusFails <;> cases env.injectFails <;> simp

theorem handleShareAction_head (tab : TabInfo) (env : Env) (u : String) (hu : tab.url = some u)
    (hs : (u == "" || startsWithL u "chrome://" || startsWithL u "chrome-extension://") = false) :
    (handleShareAction tab env).head? = some (Effect.clipboardWrite u tab.id) := by
  rw [handleShareAction_ok tab env u hu hs]
  rfl

theorem handleShareAction_mem_query (tab : TabInfo) (env : Env) (u : String)
    (hu : tab.url = some u)
    (hs : (u == "" || startsWithL u "chrome://" || startsWithL u "chrome-extension://") = false) :
    Effect.tabQuery (APP_ORIGIN ++ "/*") ∈ handleShareAction tab env := by
  rw [handleShareAction_ok tab env u hu hs]
  have h := shareTry_mem_query u env
  simp [h]

theorem handleShareAction_mem_create (tab : TabInfo) (env : Env) (u : String)
    (hu : tab.url = some u)
    (hs : (u == "" || startsWithL u "chrome://" || startsWithL u "chrome-extension://") = false)
    (hq : env.queryFails = false) (hr : env.queryResult = []) :
    Effect.tabCreate (DASHBOARD_URL ++ "?share_url=" ++ encodeURIComponent u) ∈
      handleShareAction tab env := by
  rw [handleShareAction_ok tab env u hu hs, shareTry_empty u env hq hr]
  cases env.createFails <;> simp

/-- Claim C1: with a shareable address and zero companion tabs returned by
the query, the orchestrator creates exactly one new tab, at the dashboard
address carrying the percent-encoded input as the `share_url` parameter,
and performs no dispatcher injection on that path. -/
theorem claim_C1_no_companion_creates_one_tab (tab : TabInfo) (env : Env) (u : String)
    (hu : tab.url = some u)
    (hs : (u == "" || startsWithL u "chrome://" || startsWithL u "chrome-extension://") = false)
    (hq : env.queryFails = false) (hr : env.queryResult = []) :
    (handleShareAction tab env).countP (fun e => e.isCreate) = 1 ∧
    Effect.tabCreate (DASHBOARD_URL ++ "?share_url=" ++ encodeURIComponent u) ∈
      handleShareAction tab env ∧
    (handleShareAction tab env).countP (fun e => e.isInject) = 0 := by
  refine ⟨?_, handleShareAction_mem_create tab env u hu hs hq hr, ?_⟩ <;>
    rw [handleShareAction_ok tab env u hu hs, shareTry_empty u env hq hr] <;>
    unfold copyToClipboard <;>
    cases env.clipboardFails <;> cases env.createFails <;>
      simp [Effect.isCreate, Effect.isInject]

theorem claim_C1_witness :
    Effect.tabCreate
        "https://aegis-e31n.onrender.com/dashboard/social?share_url=https%3A%2F%2Fexample.com%2Fa%3Fx%3D1%26y%3D2" ∈
      handleShareAction ⟨1, 0, some "https://example.com/a?x=1&y=2"⟩
        ⟨[], false, false, false, false, false, false⟩ := by
  have h := (claim_C1_no_companion_creates_one_tab
    ⟨1, 0, some "https://example.com/a?x=1&y=2"⟩ ⟨[], false, false, false, false, false, false⟩
    "https://example.com/a?x=1&y=2" rfl (by decide) rfl rfl).2.1
  have e : DASHBOARD_URL ++ "?share_url=" ++ encodeURIComponent "https://example.com/a?x=1&y=2" =
      "https://aegis-e31n.onrender.com/dashboard/social?share_url=https%3A%2F%2Fexample.com%2Fa%3Fx%3D1%26y%3D2" := by
    decide
  rw [e] at h
  exact h

/-- Claim C3: a tab whose address is absent or begins with an
internal-browser or extension-internal scheme produces nothing but the
logged warning: no clipboard write, no tab query, no focus, no injection,
no tab creation. -/
theorem claim_C3_internal_pages_are_noops (tab : TabInfo) (env : Env)
    (h : tab.url = none ∨
      ∃ u, tab.url = some u ∧
        (u == "" || startsWithL u "chrome://" || startsWithL u "chrome-extension://") = true) :
    handleShareAction tab env = [Effect.logWarn warnMsg] := by
  rcases h with h | ⟨u, hu, hbad⟩
  · exact handleShareAction_none tab env h
  · exact handleShareAction_bad tab env u hu hbad

theorem claim_C3_witness :
    handleShareAction ⟨2, 0, some "chrome://extensions/"⟩
      ⟨[], false, false, false, false, false, false⟩ = [Effect.logWarn warnMsg] :=
  claim_C3_internal_pages_are_noops _ _ (Or.inr ⟨"chrome://extensions/", rfl, by decide⟩)

/-- Claim C6: for every shareable address the new-tab address is the
dashboard address with the percent-encoded input as `share_url`, and
decoding that query-parameter value yields exactly the original address. -/
theorem claim_C6_percent_encoding_roundtrip (tab : TabInfo) (env : Env) (u : String)
    (hu : tab.url = some u)
    (hs : (u == "" || startsWithL u "chrome://" || startsWithL u "chrome-extension://") = false)
    (hq : env.queryFails = false) (hr : env.queryResult = []) :
    Effect.tabCreate (DASHBOARD_URL ++ "?share_url=" ++ encodeURIComponent u) ∈
      handleShareAction tab env ∧
    decodeURIComponent (encodeURIComponent u) = some u := by
  refine ⟨handleShareAction_mem_create tab env u hu hs hq hr, ?_⟩
  obtain ⟨cs⟩ := u
  exact decode_encode_list cs

theorem claim_C6_witness :
    decodeURIComponent (encodeURIComponent "https://example.com/a?x=1&y=2") =
      some "https://example.com/a?x=1&y=2" :=
  (claim_C6_percent_encoding_roundtrip ⟨1, 0, some "https://example.com/a?x=1&y=2"⟩
    ⟨[], false, false, false, false, false, false⟩ "https://example.com/a?x=1&y=2"
    rfl (by decide) rfl rfl).2

/-- Claim C8: when the dispatcher runs with URL `U`, it synchronously
raises exactly one custom notification named `AEGIS_SHARE_INTENT` whose
payload carries `U`, before the delayed fallback. -/
theorem claim_C8_custom_event_first (url : String) :
    (dispatchShareIntent url).immediate = [PageEvent.custom "AEGIS_SHARE_INTENT" url] :=
  rfl

/-- Claim C2: with a shareable address and at least one companion tab
returned by the query, the orchestrator creates no new tab; it takes the
first tab in query order, activates it, focuses its window, and performs
exactly one dispatcher injection into it with the original, unencoded
address. -/
theorem claim_C2_existing_tab_focus_and_inject (tab : TabInfo) (env : Env) (u : String)
    (t : TabInfo) (ts : List TabInfo) (hu : tab.url = some u)
    (hs : (u == "" || startsWithL u "chrome://" || startsWithL u "chrome-extension://") = false)
    (hq : env.queryFails = false) (hr : env.queryResult = t :: ts)
    (ha : env.activateFails = false) (hf : env.focusFails = false)
    (hi : env.injectFails = false) :
    handleShareAction tab env =
      copyToClipboard u tab.id env ++
        [Effect.tabQuery (APP_ORIGIN ++ "/*"), Effect.tabActivate t.id,
         Effect.windowFocus t.windowId, Effect.injectDispatch t.id u,
         Effect.logInfo dispatchedMsg] ∧
    (handleShareAction tab env).countP (fun e => e.isCreate) = 0 ∧
    (handleShareAction tab env).countP (fun e => e.isInject) = 1 := by
  have htr : handleShareAction tab env =
      copyToClipboard u tab.id env ++
        [Effect.tabQuery (APP_ORIGIN ++ "/*"), Effect.tabActivate t.id,
         Effect.windowFocus t.windowId, Effect.injectDispatch t.id u,
         Effect.logInfo dispatchedMsg] := by
    rw [handleShareAction_ok tab env u hu hs, shareTry_cons u env t ts hq hr, ha, hf, hi]
    simp
  refine ⟨htr, ?_, ?_⟩ <;> rw [htr] <;> unfold copyToClipboard <;>
    cases env.clipboardFails <;> simp [Effect.isCreate, Effect.isInject]

theorem claim_C2_witness :
    handleShareAction ⟨1, 0, some "https://news.example.org/item/42"⟩
        ⟨[⟨7, 3, some "https://aegis-e31n.onrender.com/dashboard"⟩],
          false, false, false, false, false, false⟩ =
      copyToClipboard "https://news.example.org/item/42" 1
          ⟨[⟨7, 3, some "https://aegis-e31n.onrender.com/dashboard"⟩],
            false, false, false, false, false, false⟩ ++
        [Effect.tabQuery (APP_ORIGIN ++ "/*"), Effect.tabActivate 7, Effect.windowFocus 3,
         Effect.injectDispatch 7 "https://news.example.org/item/42",
         Effect.logInfo dispatchedMsg] :=
  (claim_C2_existing_tab_focus_and_inject ⟨1, 0, some "https://news.example.org/item/42"⟩
    ⟨[⟨7, 3, some "https://aegis-e31n.onrender.com/dashboard"⟩],
      false, false, false, false, false, false⟩
    "https://news.example.org/item/42" ⟨7, 3, some "https://aegis-e31n.onrender.com/dashboard"⟩
    [] rfl (by decide) rfl rfl rfl rfl rfl).1

/-- Claim C4: for every shareable address, the clipboard write is
attempted exactly once per invocation, as the very first platform action
(hence before the companion-tab query), targeting the context of the
triggering tab itself, in every environment (companion tab present or not, any
combination of failures). -/
theorem claim_C4_clipboard_always_once_first (tab : TabInfo) (env : Env) (u : String)
    (hu : tab.url = some u)
    (hs : (u == "" || startsWithL u "chrome://" || startsWithL u "chrome-extension://") = false) :
    (handleShareAction tab env).countP (fun e => e.isClipboard) = 1 ∧
    (handleShareAction tab env).head? = some (Effect.clipboardWrite u tab.id) ∧
    Effect.tabQuery (APP_ORIGIN ++ "/*") ∈ handleShareAction tab env := by
  refine ⟨?_, handleShareAction_head tab env u hu hs,
    handleShareAction_mem_query tab env u hu hs⟩
  rw [handleShareAction_ok tab env u hu hs]
  have h0 := shareTry_no_clipboard u env
  unfold copyToClipboard
  cases env.clipboardFails <;> cases h2 : (shareTry u env).2 <;>
    simp [List.countP_append, Effect.isClipboard] <;>
    exact fun a ha => h0 a ha

theorem claim_C4_witness :
    (handleShareAction ⟨5, 2, some "https://example.com/page"⟩
        ⟨[], true, false, false, false, false, false⟩).countP (fun e => e.isClipboard) = 1 ∧
    (handleShareAction ⟨5, 2, some "https://example.com/page"⟩
        ⟨[], true, false, false, false, false, false⟩).head? =
      some (Effect.clipboardWrite "https://example.com/page" 5) ∧
    Effect.tabQuery (APP_ORIGIN ++ "/*") ∈
      handleShareAction ⟨5, 2, some "https://example.com/page"⟩
        ⟨[], true, false, false, false, false, false⟩ :=
  claim_C4_clipboard_always_once_first ⟨5, 2, some "https://example.com/page"⟩
    ⟨[], true, false, false, false, false, false⟩ "https://example.com/page" rfl (by decide)

/-- Claim C5: the dispatcher fallback runs after the fixed 100 ms
delay; if the focused element is a single-line or multi-line text field
its value becomes the URL and exactly one input-change notification
fires, otherwise exactly one paste-style notification carrying the URL
fires on the document. -/
theorem claim_C5_dispatcher_fallback (url : String) (st : PageState) :
    (dispatchShareIntent url).delayMs = 100 ∧
    (∀ el, st.activeElement = some el →
      (el.tagName == "INPUT" || el.tagName == "TEXTAREA") = true →
      ((dispatchShareIntent url).onTimeout st).1.activeElement =
          some { tagName := el.tagName, value := url } ∧
        ((dispatchShareIntent url).onTimeout st).2 = [PageEvent.input]) ∧
    (∀ el, st.activeElement = some el →
      (el.tagName == "INPUT" || el.tagName == "TEXTAREA") = false →
      ((dispatchShareIntent url).onTimeout st).2 = [PageEvent.paste url]) ∧
    (st.activeElement = none →
      ((dispatchShareIntent url).onTimeout st).2 = [PageEvent.paste url]) := by
  refine ⟨rfl, ?_, ?_, ?_⟩
  · intro el hel htag
    unfold dispatchShareIntent dispatchTimeoutBody
    dsimp only
    rw [hel]
    dsimp only
    rw [if_pos htag]
    exact ⟨rfl, rfl⟩
  · intro el hel htag
    unfold dispatchShareIntent dispatchTimeoutBody
    dsimp only
    rw [hel]
    dsimp only
    rw [if_neg (by simp [htag])]
  · intro hel
    unfold dispatchShareIntent dispatchTimeoutBody
    dsimp only
    rw [hel]

theorem claim_C5_witness :
    ((dispatchShareIntent "https://u.example/x").onTimeout
        ⟨some ⟨"INPUT", "old"⟩⟩).1.activeElement = some ⟨"INPUT", "https://u.example/x"⟩ ∧
    ((dispatchShareIntent "https://u.example/x").onTimeout
        ⟨some ⟨"INPUT", "old"⟩⟩).2 = [PageEvent.input] :=
  (claim_C5_dispatcher_fallback "https://u.example/x" ⟨some ⟨"INPUT", "old"⟩⟩).2.1
    ⟨"INPUT", "old"⟩ rfl (by decide)

/-- Claim C7: the orchestrator never propagates an error: the trace is a
total function of the environment; a clipboard failure is logged inside
the Clipboard Writer and the flow still reaches the companion-tab query;
any failure inside the try region makes the trace end with the logged
top-level error instead of escaping. -/
theorem claim_C7_errors_never_propagate (tab : TabInfo) (env : Env) (u : String)
    (hu : tab.url = some u)
    (hs : (u == "" || startsWithL u "chrome://" || startsWithL u "chrome-extension://") = false) :
    Effect.tabQuery (APP_ORIGIN ++ "/*") ∈ handleShareAction tab env ∧
    (env.clipboardFails = true → Effect.logError clipErrMsg ∈ handleShareAction tab env) ∧
    ((shareTry u env).2 = true →
      ∃ pre, handleShareAction tab env = pre ++ [Effect.logError shareErrMsg]) := by
  refine ⟨handleShareAction_mem_query tab env u hu hs, ?_, ?_⟩
  · intro hcf
    rw [handleShareAction_ok tab env u hu hs]
    unfold copyToClipboard
    rw [hcf]
    simp
  · intro h2
    rw [handleShareAction_ok tab env u hu hs, h2]
    exact ⟨copyToClipboard u tab.id env ++ (shareTry u env).1, by simp⟩

theorem claim_C7_witness :
    Effect.logError clipErrMsg ∈
      handleShareAction ⟨4, 1, some "https://example.com/q"⟩
        ⟨[], true, true, false, false, false, false⟩ :=
  (claim_C7_errors_never_propagate ⟨4, 1, some "https://example.com/q"⟩
    ⟨[], true, true, false, false, false, false⟩ "https://example.com/q" rfl (by decide)).2.1 rfl

/-- Claim C9: the no-op-with-warning outcome happens exactly for the
absent or empty address and addresses starting with the case-sensitive
literals for the internal-browser and extension-internal schemes; every
other address goes through the full flow, starting with the clipboard
write and reaching the companion-tab query. -/
theorem claim_C9_reject_set_characterization (tab : TabInfo) (env : Env) :
    (handleShareAction tab env = [Effect.logWarn warnMsg] ↔ nonShareableSpec tab.url = true) ∧
    (nonShareableSpec tab.url = false →
      ∃ u, tab.url = some u ∧
        (handleShareAction tab env).head? = some (Effect.clipboardWrite u tab.id) ∧
        Effect.tabQuery (APP_ORIGIN ++ "/*") ∈ handleShareAction tab env) := by
  rcases htab : tab.url with _ | u
  · refine ⟨⟨fun _ => rfl, fun _ => handleShareAction_none tab env htab⟩, ?_⟩
    intro hfalse
    exact absurd hfalse (by simp [nonShareableSpec])
  · by_cases hcond :
      (u == "" || startsWithL u "chrome://" || startsWithL u "chrome-extension://") = true
    · refine ⟨⟨fun _ => hcond,
        fun _ => handleShareAction_bad tab env u htab hcond⟩, ?_⟩
      intro hfalse
      exact absurd (hcond.symm.trans hfalse) (by simp)
    · rw [Bool.not_eq_true] at hcond
      refine ⟨⟨fun heq => ?_, fun htrue => ?_⟩,
        fun _ => ⟨u, rfl, handleShareAction_head tab env u htab hcond,
          handleShareAction_mem_query tab env u htab hcond⟩⟩
      · have hh := handleShareAction_head tab env u htab hcond
        rw [heq] at hh
        simp at hh
      · exact absurd (hcond.symm.trans htrue) (by simp)

theorem claim_C9_witness :
    ¬(handleShareAction ⟨1, 0, some "about:blank"⟩
        ⟨[], false, false, false, false, false, false⟩ = [Effect.logWarn warnMsg]) := by
  intro h
  have hm := (claim_C9_reject_set_characterization ⟨1, 0, some "about:blank"⟩
    ⟨[], false, false, false, false, false, false⟩).1.mp h
  exact absurd hm (by decide)

/-- Claim C10: in the existing-tab branch, tab activation, window focus
and dispatcher injection run in that fixed order; a failure aborts all
remaining steps (only the top-level error is logged afterwards), and no
combination of failures ever falls back to creating a new tab. -/
theorem claim_C10_existing_tab_failure_aborts (tab : TabInfo) (env : Env) (u : String)
    (t : TabInfo) (ts : List TabInfo) (hu : tab.url = some u)
    (hs : (u == "" || startsWithL u "chrome://" || startsWithL u "chrome-extension://") = false)
    (hq : env.queryFails = false) (hr : env.queryResult = t :: ts) :
    (handleShareAction tab env).countP (fun e => e.isCreate) = 0 ∧
    (env.activateFails = true →
      handleShareAction tab env =
        copyToClipboard u tab.id env ++
          [Effect.tabQuery (APP_ORIGIN ++ "/*"), Effect.tabActivate t.id,
           Effect.logError shareErrMsg]) ∧
    (env.activateFails = false → env.focusFails = true →
      handleShareAction tab env =
        copyToClipboard u tab.id env ++
          [Effect.tabQuery (APP_ORIGIN ++ "/*"), Effect.tabActivate t.id,
           Effect.windowFocus t.windowId, Effect.logError shareErrMsg]) ∧
    (env.activateFails = false → env.focusFails = false → env.injectFails = true →
      handleShareAction tab env =
        copyToClipboard u tab.id env ++
          [Effect.tabQuery (APP_ORIGIN ++ "/*"), Effect.tabActivate t.id,
           Effect.windowFocus t.windowId, Effect.injectDispatch t.id u,
           Effect.logError shareErrMsg]) := by
  refine ⟨?_, ?_, ?_, ?_⟩
  · rw [handleShareAction_ok tab env u hu hs, shareTry_cons u env t ts hq hr]
    unfold copyToClipboard
    cases env.clipboardFails <;> cases env.activateFails <;> cases env.focusFails <;>
      cases env.injectFails <;> simp [Effect.isCreate]
  · intro ha
    rw [handleShareAction_ok tab env u hu hs, shareTry_cons u env t ts hq hr, ha]
    simp
  · intro ha hf
    rw [handleShareAction_ok tab env u hu hs, shareTry_cons u env t ts hq hr, ha, hf]
    simp
  · intro ha hf hi
    rw [handleShareAction_ok tab env u hu hs, shareTry_cons u env t ts hq hr, ha, hf, hi]
    simp

theorem claim_C10_witness :
    handleShareAction ⟨1, 0, some "https://example.com/doc"⟩
        ⟨[⟨9, 4, some "https://aegis-e31n.onrender.com/dashboard/social"⟩],
          false, false, true, false, false, false⟩ =
      copyToClipboard "https://example.com/doc" 1
          ⟨[⟨9, 4, some "https://aegis-e31n.onrender.com/dashboard/social"⟩],
            false, false, true, false, false, false⟩ ++
        [Effect.tabQuery (APP_ORIGIN ++ "/*"), Effect.tabActivate 9,
         Effect.logError shareErrMsg] :=
  (claim_C10_existing_tab_failure_aborts ⟨1, 0, some "https://example.com/doc"⟩
    ⟨[⟨9, 4, some "https://aegis-e31n.onrender.com/dashboard/social"⟩],
      false, false, true, false, false, false⟩
    "https://example.com/doc" ⟨9, 4, some "https://aegis-e31n.onrender.com/dashboard/social"⟩
    [] rfl (by decide) rfl rfl).2.1 rfl
